import Mathlib

/-!
Verification development for `libs/hwui/pipeline/skia/SkiaDisplayList.h`
(the Skia-pipeline display-list recording container of the hwui renderer).

The header declares the class `SkiaDisplayList`: its member collections
(`mChildNodes`, `mChildFunctors`, `mMutableImages`, `mVectorDrawables`),
the command buffer `mDrawable` (an `SkLiteDL`), the projection-receiver
flag `mIsProjectionReceiver = false`, the inline accessors `isSkiaDL`,
`isEmpty`, `hasFunctor`, `hasVectorDrawables`, the inline destructor
(which resets `mDrawable` before the members and the base-class
`LinearAllocator` are destroyed), and declarations of `reset`,
`syncContents`, `prepareListAndChildren` and `updateChildren` whose
out-of-line bodies are specified by the accompanying natural-language
specification.

External collaborators (SkRect, SkLiteDL, RenderNode, SkImage,
VectorDrawableRoot, the platform functor) are modelled at their interface
boundary: opaque identities plus the operations this class consumes
(`SkLiteDL::New`, `SkLiteDL::reset`, `SkLiteDL::empty`, append).
-/

/-- Bounding rectangle (external `SkRect`); only stored and compared here,
never used arithmetically, so integer coordinates suffice. -/
structure SkRect where
  left : Int
  top : Int
  right : Int
  bottom : Int
deriving DecidableEq, Repr

/-- Externally-owned scene node (`RenderNode*`), opaque identity. -/
structure RenderNode where
  nodeId : Nat
deriving DecidableEq, Repr

/-- Transform snapshot captured at record time (external `Matrix4`/`SkMatrix`),
opaque to every property proved here. -/
structure Matrix4 where
  matId : Nat
deriving DecidableEq, Repr

/-- Externally-owned mutable image resource (`SkImage*`), opaque identity. -/
structure SkImage where
  imageId : Nat
deriving DecidableEq, Repr

/-- Externally-owned animated vector content (`VectorDrawableRoot*`),
opaque identity. -/
structure VectorDrawableRoot where
  vdId : Nat
deriving DecidableEq, Repr

/-- Wrapper drawable for a referenced child scene node
(`RenderNodeDrawable`): a non-owning reference to the node plus the
transform captured at record time. -/
structure RenderNodeDrawable where
  renderNode : RenderNode
  recordedMatrix : Matrix4
deriving DecidableEq, Repr

/-- Wrapper drawable invoking an external platform-drawing callback
(`GLFunctorDrawable`), identified by the wrapped functor. -/
structure GLFunctorDrawable where
  functorId : Nat
deriving DecidableEq, Repr

/-- One recorded drawing operation inside the command buffer.  An operation
that references a child node / functor / image / vector content carries
that reference; a plain primitive carries only an opaque payload. -/
inductive DrawOp where
  | drawPrimitive (payload : Nat)
  | drawRenderNode (d : RenderNodeDrawable)
  | drawGLFunctor (d : GLFunctorDrawable)
  | drawImage (img : SkImage)
  | drawVectorDrawable (vd : VectorDrawableRoot)
deriving DecidableEq, Repr

/-- The command buffer collaborator (`SkLiteDL`), modelled at its interface
boundary: it is created with bounds, operations are appended to it, it
answers `empty()`, and `reset(bounds)` returns it to the freshly-created
state with new bounds. -/
structure SkLiteDL where
  bounds : SkRect
  ops : List DrawOp
deriving DecidableEq, Repr

/-- `SkLiteDL::New(bounds)`: a fresh command buffer with no operations. -/
def SkLiteDL.new (b : SkRect) : SkLiteDL :=
  { bounds := b, ops := [] }

/-- `SkLiteDL::empty()`: true iff no operation has been recorded. -/
def SkLiteDL.empty (dl : SkLiteDL) : Bool :=
  dl.ops.isEmpty

/-- Appending one recorded operation to the command buffer. -/
def SkLiteDL.append (dl : SkLiteDL) (op : DrawOp) : SkLiteDL :=
  { dl with ops := dl.ops ++ [op] }

/-- `SkLiteDL::reset(bounds)`: logically identical to a freshly created
buffer with the new bounds. -/
def SkLiteDL.resetDL (dl : SkLiteDL) (b : SkRect) : SkLiteDL :=
  let _ := dl
  SkLiteDL.new b

/-- The base-class `LinearAllocator` (bump arena) at its interface boundary:
retained block capacity and the bump offset.  A rewind zeroes the offset but
keeps the capacity; a fresh allocator starts with no retained blocks. -/
structure LinearAllocator where
  capacity : Nat
  used : Nat
deriving DecidableEq, Repr

/-- A freshly constructed arena. -/
def LinearAllocator.new : LinearAllocator :=
  { capacity := 0, used := 0 }

/-- Bulk rewind: all handles die together, capacity is retained. -/
def LinearAllocator.rewind (a : LinearAllocator) : LinearAllocator :=
  { a with used := 0 }

/-- One arena allocation of a wrapper drawable: bump the offset, growing
retained capacity when needed. -/
def LinearAllocator.bump (a : LinearAllocator) : LinearAllocator :=
  { capacity := max a.capacity (a.used + 1), used := a.used + 1 }

/-- The recording container `SkiaDisplayList`: the member fields declared
in the header, plus the base-class arena. -/
structure SkiaDisplayList where
  mChildNodes : List RenderNodeDrawable
  mChildFunctors : List GLFunctorDrawable
  mMutableImages : List SkImage
  mVectorDrawables : List VectorDrawableRoot
  mDrawable : SkLiteDL
  mIsProjectionReceiver : Bool
  allocator : LinearAllocator
deriving DecidableEq, Repr

/-- Modelled from the spec: the out-of-line constructor
`SkiaDisplayList(SkRect bounds)` is not in the sources; per the spec,
`construct(bounds)` allocates fresh internal storage (arena, command
buffer, empty collections) with the given bounding rectangle.  The
in-class initializer `bool mIsProjectionReceiver = false` is taken from
the header. -/
def SkiaDisplayList.construct (bounds : SkRect) : SkiaDisplayList :=
  { mChildNodes := []
    mChildFunctors := []
    mMutableImages := []
    mVectorDrawables := []
    mDrawable := SkLiteDL.new bounds
    mIsProjectionReceiver := false
    allocator := LinearAllocator.new }

/-- Modelled from the spec: the out-of-line body of `reset(SkRect bounds)`
is not in the sources; per the spec it must leave the object
observationally identical to a freshly constructed one with the new
bounds while retaining backing storage: the command buffer is torn
down/reset first, the child collections are cleared to logical length
zero, and the arena is rewound with capacity retained. -/
def SkiaDisplayList.reset (dl : SkiaDisplayList) (bounds : SkRect) :
    SkiaDisplayList :=
  { mChildNodes := []
    mChildFunctors := []
    mMutableImages := []
    mVectorDrawables := []
    mDrawable := dl.mDrawable.resetDL bounds
    mIsProjectionReceiver := false
    allocator := dl.allocator.rewind }

/-- `isSkiaDL()`: from the header, `return true`. -/
def SkiaDisplayList.isSkiaDL (dl : SkiaDisplayList) : Bool :=
  let _ := dl
  true

/-- `isEmpty()`: from the header, `return mDrawable->empty()`. -/
def SkiaDisplayList.isEmpty (dl : SkiaDisplayList) : Bool :=
  dl.mDrawable.empty

/-- `hasFunctor()`: from the header, `return !mChildFunctors.empty()`. -/
def SkiaDisplayList.hasFunctor (dl : SkiaDisplayList) : Bool :=
  !dl.mChildFunctors.isEmpty

/-- `hasVectorDrawables()`: from the header,
`return !mVectorDrawables.empty()`. -/
def SkiaDisplayList.hasVectorDrawables (dl : SkiaDisplayList) : Bool :=
  !dl.mVectorDrawables.isEmpty

/-- One producer-phase step on the container.  Per the spec's data flow,
recording an operation that references a child node / functor / image /
vector content appends the typed reference to the corresponding
collection (allocating the wrapper from the arena where a wrapper
exists) and then appends the operation to the command buffer; a plain
primitive touches only the command buffer.  `markProjectionReceiver` is
the external write to the public `mIsProjectionReceiver` field, and
`reset` the reuse path. -/
inductive Step where
  | recordDraw (payload : Nat)
  | recordChildNode (d : RenderNodeDrawable)
  | recordFunctor (d : GLFunctorDrawable)
  | recordMutableImage (img : SkImage)
  | recordVectorDrawable (vd : VectorDrawableRoot)
  | markProjectionReceiver
  | reset (b : SkRect)
deriving DecidableEq, Repr

/-- Effect of one step on the container state. -/
def SkiaDisplayList.applyStep (dl : SkiaDisplayList) : Step → SkiaDisplayList
  | Step.recordDraw payload =>
      { dl with mDrawable := dl.mDrawable.append (DrawOp.drawPrimitive payload) }
  | Step.recordChildNode d =>
      { dl with
        mChildNodes := dl.mChildNodes ++ [d]
        mDrawable := dl.mDrawable.append (DrawOp.drawRenderNode d)
        allocator := dl.allocator.bump }
  | Step.recordFunctor d =>
      { dl with
        mChildFunctors := dl.mChildFunctors ++ [d]
        mDrawable := dl.mDrawable.append (DrawOp.drawGLFunctor d)
        allocator := dl.allocator.bump }
  | Step.recordMutableImage img =>
      { dl with
        mMutableImages := dl.mMutableImages ++ [img]
        mDrawable := dl.mDrawable.append (DrawOp.drawImage img) }
  | Step.recordVectorDrawable vd =>
      { dl with
        mVectorDrawables := dl.mVectorDrawables ++ [vd]
        mDrawable := dl.mDrawable.append (DrawOp.drawVectorDrawable vd) }
  | Step.markProjectionReceiver =>
      { dl with mIsProjectionReceiver := true }
  | Step.reset b => dl.reset b

/-- Folding a whole history of steps over a state. -/
def SkiaDisplayList.applySteps (dl : SkiaDisplayList) (steps : List Step) :
    SkiaDisplayList :=
  steps.foldl SkiaDisplayList.applyStep dl

/-- Every reachable state: constructed with some bounds, then any history
of recording, marking and resets. -/
def SkiaDisplayList.applyTrace (b : SkRect) (steps : List Step) :
    SkiaDisplayList :=
  (SkiaDisplayList.construct b).applySteps steps

/-- One invocation of a state-synchronization hook during `syncContents`,
identified by the reference it was invoked on. -/
inductive SyncCall where
  | functorSync (d : GLFunctorDrawable)
  | vectorSync (vd : VectorDrawableRoot)
deriving DecidableEq, Repr

/-- Modelled from the spec: the out-of-line body of `syncContents()` is not
in the sources; per the spec it invokes, for each Functor Reference and
each Vector-Content Reference of the current recording pass, that
entity's own state-synchronization hook exactly once, in any order.  The
model returns the trace of hook invocations. -/
def SkiaDisplayList.syncContents (dl : SkiaDisplayList) : List SyncCall :=
  dl.mChildFunctors.map SyncCall.functorSync
    ++ dl.mVectorDrawables.map SyncCall.vectorSync

/-- Whether a synchronization call targets an entity of the current
recording pass of `dl`. -/
def SkiaDisplayList.inCurrentPass (dl : SkiaDisplayList) : SyncCall → Prop
  | SyncCall.functorSync d => d ∈ dl.mChildFunctors
  | SyncCall.vectorSync vd => vd ∈ dl.mVectorDrawables

instance (dl : SkiaDisplayList) (c : SyncCall) :
    Decidable (dl.inCurrentPass c) := by
  cases c <;> simp [SkiaDisplayList.inCurrentPass] <;> infer_instance

/-- Opaque per-traversal tree state (external `TreeInfo`). -/
structure TreeInfo where
  infoId : Nat
deriving DecidableEq, Repr

/-- Modelled from the spec: the out-of-line body of
`prepareListAndChildren(TreeInfo&, bool, childFn)` is not in the
sources; per the spec it walks the Mutable-Image References (whose
upload/synchronization may signal invalidation, abstracted by
`imageDirty`) and every Child-Node Reference (invoking the supplied
callback with the tree info and the unchanged `functorsNeedLayer` flag),
and returns the aggregate "any visited content signalled invalidation"
boolean.  The model also returns the trace of child-callback
invocations: the node and the flag value each call received. -/
def SkiaDisplayList.prepareListAndChildren (dl : SkiaDisplayList)
    (info : TreeInfo) (functorsNeedLayer : Bool)
    (imageDirty : SkImage → Bool)
    (childFn : RenderNode → TreeInfo → Bool → Bool) :
    Bool × List (RenderNode × Bool) :=
  (dl.mMutableImages.any imageDirty
      || dl.mChildNodes.any
        (fun c => childFn c.renderNode info functorsNeedLayer),
   dl.mChildNodes.map (fun c => (c.renderNode, functorsNeedLayer)))

/-- First-occurrence subsequence of a list, skipping elements already seen:
the distinct referenced nodes in recording order. -/
def distinctFrom (seen : List RenderNode) :
    List RenderNode → List RenderNode
  | [] => []
  | n :: rest =>
      if n ∈ seen then distinctFrom seen rest
      else n :: distinctFrom (n :: seen) rest

/-- Modelled from the spec: the out-of-line body of
`updateChildren(updateFn)` is not in the sources; per the spec it
invokes the callback once per distinct referenced child scene node, in
recording order.  The model's trace is that sequence of callback
targets. -/
def SkiaDisplayList.updateChildrenTrace (dl : SkiaDisplayList) :
    List RenderNode :=
  distinctFrom [] (dl.mChildNodes.map RenderNodeDrawable.renderNode)

/-- Modelled from the spec: `updateChildren(updateFn)` folds the callback
(modelled as a transformer of an arbitrary callback-owned state) over
the trace, with no side effect beyond what the callback performs: the
container component of the result is the unchanged container. -/
def SkiaDisplayList.updateChildren {σ : Type} (dl : SkiaDisplayList)
    (updateFn : RenderNode → σ → σ) (s : σ) : SkiaDisplayList × σ :=
  (dl, dl.updateChildrenTrace.foldl (fun acc n => updateFn n acc) s)

/-- The observations through which the owning tree sees the container:
`isEmpty`, `hasFunctor`, `hasVectorDrawables`, the `updateChildren`
callback trace, and the bounding rectangle. -/
def SkiaDisplayList.observe (dl : SkiaDisplayList) :
    Bool × Bool × Bool × List RenderNode × SkRect :=
  (dl.isEmpty, dl.hasFunctor, dl.hasVectorDrawables,
   dl.updateChildrenTrace, dl.mDrawable.bounds)

/-- Teardown-phase events, in the order they happen. -/
inductive TeardownEvent where
  | commandBufferTeardown
  | clearChildCollections
  | arenaRewind
  | individualWrapperDestroy
deriving DecidableEq, Repr

/-- Teardown order of the destructor, from the header: the body runs
`mDrawable.reset()` (command buffer torn down first, per its comment),
then the member collections are destroyed, then the base-class
destructor reclaims the arena, bulk-destroying every arena-allocated
wrapper at that point. -/
def destructorTeardown : List TeardownEvent :=
  [TeardownEvent.commandBufferTeardown]
    ++ [TeardownEvent.clearChildCollections]
    ++ [TeardownEvent.arenaRewind]

/-- Modelled from the spec: the teardown half of the out-of-line `reset`
body is not in the sources; per the spec the command buffer is torn
down/reset first, then the wrapper-holding collections are cleared, then
the arena is rewound, bulk-invalidating every wrapper. -/
def resetTeardown : List TeardownEvent :=
  [TeardownEvent.commandBufferTeardown]
    ++ [TeardownEvent.clearChildCollections]
    ++ [TeardownEvent.arenaRewind]

/-- Operations appended to the command buffer by one step, given the
operations accumulated since the last reset. -/
def stepOps (acc : List DrawOp) : Step → List DrawOp
  | Step.recordDraw payload => acc ++ [DrawOp.drawPrimitive payload]
  | Step.recordChildNode d => acc ++ [DrawOp.drawRenderNode d]
  | Step.recordFunctor d => acc ++ [DrawOp.drawGLFunctor d]
  | Step.recordMutableImage img => acc ++ [DrawOp.drawImage img]
  | Step.recordVectorDrawable vd => acc ++ [DrawOp.drawVectorDrawable vd]
  | Step.markProjectionReceiver => acc
  | Step.reset _ => []

/-- Folding a step history over an operation accumulator. -/
def opsFold : List DrawOp → List Step → List DrawOp
  | acc, [] => acc
  | acc, s :: rest => opsFold (stepOps acc s) rest

/-- The operations recorded by a history since its construction or its
last reset, whichever came later. -/
def recordedSinceReset (steps : List Step) : List DrawOp :=
  opsFold [] steps

/-- Concrete bounds used by the witness instantiations. -/
def rect0 : SkRect :=
  { left := 0, top := 0, right := 100, bottom := 100 }

/-- Concrete scene node used by the witness instantiations. -/
def node0 : RenderNode :=
  { nodeId := 5 }

/-- Concrete child-node wrapper used by the witness instantiations. -/
def rnd0 : RenderNodeDrawable :=
  { renderNode := node0, recordedMatrix := { matId := 0 } }

/-- A container that recorded exactly one child-node operation. -/
def dlOneChild : SkiaDisplayList :=
  SkiaDisplayList.applyTrace rect0 [Step.recordChildNode rnd0]

theorem applySteps_ops (steps : List Step) :
    ∀ dl : SkiaDisplayList,
      (dl.applySteps steps).mDrawable.ops = opsFold dl.mDrawable.ops steps := by
  induction steps with
  | nil => intro dl; rfl
  | cons s rest ih =>
      intro dl
      show ((dl.applyStep s).applySteps rest).mDrawable.ops =
        opsFold (stepOps dl.mDrawable.ops s) rest
      rw [ih]
      congr 1
      cases s <;> rfl

theorem mem_distinctFrom (l : List RenderNode) :
    ∀ (seen : List RenderNode) (n : RenderNode),
      n ∈ distinctFrom seen l ↔ n ∈ l ∧ n ∉ seen := by
  induction l with
  | nil => intro seen n; simp [distinctFrom]
  | cons m rest ih =>
      intro seen n
      by_cases hm : m ∈ seen
      · rw [distinctFrom, if_pos hm, ih]
        constructor
        · exact fun h => ⟨List.mem_cons_of_mem _ h.1, h.2⟩
        · rintro ⟨h1, h2⟩
          rcases List.mem_cons.mp h1 with h | h
          · exact absurd (by rw [h]; exact hm) h2
          · exact ⟨h, h2⟩
      · rw [distinctFrom, if_neg hm]
        simp only [List.mem_cons, ih]
        constructor
        · rintro (h | ⟨h1, h2⟩)
          · subst h; exact ⟨Or.inl rfl, hm⟩
          · push_neg at h2
            exact ⟨Or.inr h1, h2.2⟩
        · rintro ⟨h1, h2⟩
          by_cases hnm : n = m
          · exact Or.inl hnm
          · rcases h1 with h | h
            · exact absurd h hnm
            · refine Or.inr ⟨h, ?_⟩
              push_neg
              exact ⟨hnm, h2⟩

theorem distinctFrom_sublist (l : List RenderNode) :
    ∀ seen : List RenderNode, (distinctFrom seen l).Sublist l := by
  induction l with
  | nil => intro seen; simp [distinctFrom]
  | cons m rest ih =>
      intro seen
      by_cases hm : m ∈ seen
      · rw [distinctFrom, if_pos hm]
        exact List.Sublist.cons m (ih seen)
      · rw [distinctFrom, if_neg hm]
        exact List.Sublist.cons₂ m (ih (m :: seen))

theorem nodup_distinctFrom (l : List RenderNode) :
    ∀ seen : List RenderNode, (distinctFrom seen l).Nodup := by
  induction l with
  | nil => intro seen; simp [distinctFrom]
  | cons m rest ih =>
      intro seen
      by_cases hm : m ∈ seen
      · rw [distinctFrom, if_pos hm]
        exact ih seen
      · rw [distinctFrom, if_neg hm, List.nodup_cons]
        refine ⟨fun hmem => ?_, ih (m :: seen)⟩
        rcases (mem_distinctFrom rest (m :: seen) m).mp hmem with ⟨_, hns⟩
        exact hns (List.mem_cons_self m seen)

theorem projectionReceiver_of_not_marked (steps : List Step) :
    ∀ dl : SkiaDisplayList, Step.markProjectionReceiver ∉ steps →
      dl.mIsProjectionReceiver = false →
      (dl.applySteps steps).mIsProjectionReceiver = false := by
  induction steps with
  | nil => intro dl _ h; exact h
  | cons s rest ih =>
      intro dl hmem h
      rw [List.mem_cons] at hmem
      push_neg at hmem
      refine ih (dl.applyStep s) hmem.2 ?_
      cases s with
      | markProjectionReceiver => exact absurd rfl hmem.1
      | reset b => rfl
      | recordDraw payload => exact h
      | recordChildNode d => exact h
      | recordFunctor d => exact h
      | recordMutableImage img => exact h
      | recordVectorDrawable vd => exact h

/-- C1: for every bounds and prior history of construction, recording and
resets, `reset(b2)` leaves the container observationally identical (via
`isEmpty`, `hasFunctor`, `hasVectorDrawables`, the `updateChildren`
trace, and the bounding rectangle) to a freshly constructed container
with bounds `b2`: command buffer empty, all four child-reference
collections empty, bounds equal to `b2`. -/
theorem reset_refines_fresh_construct (b : SkRect) (steps : List Step)
    (b2 : SkRect) :
    ((SkiaDisplayList.applyTrace b steps).reset b2).observe =
        (SkiaDisplayList.construct b2).observe ∧
    ((SkiaDisplayList.applyTrace b steps).reset b2).mDrawable.ops = [] ∧
    ((SkiaDisplayList.applyTrace b steps).reset b2).mChildNodes = [] ∧
    ((SkiaDisplayList.applyTrace b steps).reset b2).mChildFunctors = [] ∧
    ((SkiaDisplayList.applyTrace b steps).reset b2).mMutableImages = [] ∧
    ((SkiaDisplayList.applyTrace b steps).reset b2).mVectorDrawables = [] ∧
    ((SkiaDisplayList.applyTrace b steps).reset b2).mDrawable.bounds = b2 :=
  ⟨rfl, rfl, rfl, rfl, rfl, rfl, rfl⟩

/-- C2: `prepareListAndChildren` returns true iff at least one visited
Mutable-Image Reference or Child-Node Reference signals invalidation;
in particular it returns false when the container holds no mutable-image
and no child-node references. -/
theorem prepareListAndChildren_dirty_iff (dl : SkiaDisplayList)
    (info : TreeInfo) (functorsNeedLayer : Bool)
    (imageDirty : SkImage → Bool)
    (childFn : RenderNode → TreeInfo → Bool → Bool) :
    ((dl.prepareListAndChildren info functorsNeedLayer imageDirty
          childFn).1 = true ↔
      ((∃ img ∈ dl.mMutableImages, imageDirty img = true) ∨
        ∃ c ∈ dl.mChildNodes,
          childFn c.renderNode info functorsNeedLayer = true)) ∧
    (dl.mMutableImages = [] → dl.mChildNodes = [] →
      (dl.prepareListAndChildren info functorsNeedLayer imageDirty
          childFn).1 = false) := by
  constructor
  · simp [SkiaDisplayList.prepareListAndChildren, List.any_eq_true]
  · intro h1 h2
    simp [SkiaDisplayList.prepareListAndChildren, h1, h2]

/-- Witness for C2 at a container with no mutable-image and no child-node
references. -/
theorem prepareListAndChildren_dirty_iff_witness :
    ((SkiaDisplayList.construct rect0).prepareListAndChildren
        { infoId := 0 } true (fun _ => true) (fun _ _ _ => false)).1 =
      false :=
  (prepareListAndChildren_dirty_iff (SkiaDisplayList.construct rect0)
      { infoId := 0 } true (fun _ => true) (fun _ _ _ => false)).2 rfl rfl

/-- C3: `syncContents()` invokes the state-synchronization hook on each
Functor Reference in the container exactly once and on each
Vector-Content Reference exactly once (the multiplicity of each hook
invocation in the trace equals the reference's multiplicity in its
collection), and on no entity outside the current recording pass. -/
theorem syncContents_exactly_once (dl : SkiaDisplayList) :
    (∀ d : GLFunctorDrawable,
        dl.syncContents.count (SyncCall.functorSync d) =
          dl.mChildFunctors.count d) ∧
    (∀ vd : VectorDrawableRoot,
        dl.syncContents.count (SyncCall.vectorSync vd) =
          dl.mVectorDrawables.count vd) ∧
    (∀ c ∈ dl.syncContents, dl.inCurrentPass c) := by
  refine ⟨fun d => ?_, fun vd => ?_, fun c hc => ?_⟩
  · rw [SkiaDisplayList.syncContents, List.count_append]
    have hz : (dl.mVectorDrawables.map SyncCall.vectorSync).count
        (SyncCall.functorSync d) = 0 := by
      rw [List.count_eq_zero]
      simp
    rw [hz, List.count_map_of_injective]
    · exact Nat.add_zero _
    · intro a b hab
      injection hab
  · rw [SkiaDisplayList.syncContents, List.count_append]
    have hz : (dl.mChildFunctors.map SyncCall.functorSync).count
        (SyncCall.vectorSync vd) = 0 := by
      rw [List.count_eq_zero]
      simp
    rw [hz, List.count_map_of_injective]
    · exact Nat.zero_add _
    · intro a b hab
      injection hab
  · rw [SkiaDisplayList.syncContents] at hc
    rcases List.mem_append.mp hc with h | h
    · rcases List.mem_map.mp h with ⟨d, hd, rfl⟩
      exact hd
    · rcases List.mem_map.mp h with ⟨vd, hvd, rfl⟩
      exact hvd

/-- Witness for C3: a synchronized functor is an entity of the current
recording pass. -/
theorem syncContents_exactly_once_witness :
    (SkiaDisplayList.applyTrace rect0
        [Step.recordFunctor { functorId := 7 }]).inCurrentPass
      (SyncCall.functorSync { functorId := 7 }) :=
  (syncContents_exactly_once
      (SkiaDisplayList.applyTrace rect0
        [Step.recordFunctor { functorId := 7 }])).2.2
    (SyncCall.functorSync { functorId := 7 }) (by decide)

/-- C4: in every reachable state (any bounds, any step history),
`isEmpty()` returns true iff the command buffer holds zero operations
recorded since construction or the last reset. -/
theorem isEmpty_iff_no_ops_since_reset (b : SkRect) (steps : List Step) :
    (SkiaDisplayList.applyTrace b steps).isEmpty = true ↔
      recordedSinceReset steps = [] := by
  have h := applySteps_ops steps (SkiaDisplayList.construct b)
  rw [SkiaDisplayList.applyTrace, SkiaDisplayList.isEmpty, SkLiteDL.empty, h]
  exact List.isEmpty_iff

/-- C5: `hasFunctor()` returns true iff the Functor Reference collection
is non-empty, and `hasVectorDrawables()` returns true iff the
Vector-Content Reference collection is non-empty, in every state. -/
theorem hasFunctor_hasVectorDrawables_iff (dl : SkiaDisplayList) :
    (dl.hasFunctor = true ↔ dl.mChildFunctors ≠ []) ∧
    (dl.hasVectorDrawables = true ↔ dl.mVectorDrawables ≠ []) := by
  constructor
  · cases h : dl.mChildFunctors <;>
      simp [SkiaDisplayList.hasFunctor, h]
  · cases h : dl.mVectorDrawables <;>
      simp [SkiaDisplayList.hasVectorDrawables, h]

/-- C6: in both teardown paths (destruction, and the teardown half of
`reset`), the command buffer is torn down strictly before the arena is
reclaimed or rewound, and no individual wrapper destruction occurs:
wrappers die only in bulk at the arena event. -/
theorem commandBuffer_torn_down_before_arena :
    (destructorTeardown.indexOf TeardownEvent.commandBufferTeardown <
        destructorTeardown.indexOf TeardownEvent.arenaRewind ∧
      TeardownEvent.commandBufferTeardown ∈ destructorTeardown ∧
      TeardownEvent.arenaRewind ∈ destructorTeardown ∧
      TeardownEvent.individualWrapperDestroy ∉ destructorTeardown) ∧
    (resetTeardown.indexOf TeardownEvent.commandBufferTeardown <
        resetTeardown.indexOf TeardownEvent.arenaRewind ∧
      TeardownEvent.commandBufferTeardown ∈ resetTeardown ∧
      TeardownEvent.arenaRewind ∈ resetTeardown ∧
      TeardownEvent.individualWrapperDestroy ∉ resetTeardown) := by
  decide

/-- C7: `updateChildren` leaves the container unchanged, and its callback
trace visits each distinct referenced child scene node exactly once
(no duplicates), in recording order (a sublist of the recorded node
sequence), covering exactly the referenced nodes; the callback-state
result is exactly the fold of the callback over that trace. -/
theorem updateChildren_once_per_distinct_in_order {σ : Type}
    (dl : SkiaDisplayList) (updateFn : RenderNode → σ → σ) (s : σ) :
    (dl.updateChildren updateFn s).1 = dl ∧
    dl.updateChildrenTrace.Nodup ∧
    dl.updateChildrenTrace.Sublist
        (dl.mChildNodes.map RenderNodeDrawable.renderNode) ∧
    (∀ n : RenderNode, n ∈ dl.updateChildrenTrace ↔
        n ∈ dl.mChildNodes.map RenderNodeDrawable.renderNode) ∧
    (dl.updateChildren updateFn s).2 =
      dl.updateChildrenTrace.foldl (fun acc n => updateFn n acc) s := by
  refine ⟨rfl, nodup_distinctFrom _ [], distinctFrom_sublist _ [], ?_, rfl⟩
  intro n
  rw [SkiaDisplayList.updateChildrenTrace, mem_distinctFrom]
  simp

/-- C8: `prepareListAndChildren` passes the `functorsNeedLayer` argument,
unchanged, to the child-prepare callback for every Child-Node Reference
it visits. -/
theorem prepareListAndChildren_flag_unchanged (dl : SkiaDisplayList)
    (info : TreeInfo) (functorsNeedLayer : Bool)
    (imageDirty : SkImage → Bool)
    (childFn : RenderNode → TreeInfo → Bool → Bool) :
    ∀ call ∈ (dl.prepareListAndChildren info functorsNeedLayer imageDirty
        childFn).2, call.2 = functorsNeedLayer := by
  intro call hc
  simp only [SkiaDisplayList.prepareListAndChildren] at hc
  rcases List.mem_map.mp hc with ⟨c, _hm, hcall⟩
  rw [← hcall]

/-- Witness for C8 at a container with one recorded child node. -/
theorem prepareListAndChildren_flag_unchanged_witness :
    ((node0, true) : RenderNode × Bool).2 = true :=
  prepareListAndChildren_flag_unchanged dlOneChild { infoId := 0 } true
    (fun _ => false) (fun _ _ _ => false) (node0, true) (by decide)

/-- C9: `isSkiaDL()` returns true in every state; it is a constant
property of the type, independent of recorded content, resets or
bounds. -/
theorem isSkiaDL_always_true (dl : SkiaDisplayList) :
    dl.isSkiaDL = true ∧
      ∀ e : SkiaDisplayList, e.isSkiaDL = dl.isSkiaDL :=
  ⟨rfl, fun _ => rfl⟩

/-- C10: a newly constructed container has `mIsProjectionReceiver` false
(the in-class initializer), and in any reachable state the flag is true
only if some step of the history explicitly set it. -/
theorem projectionReceiver_false_until_marked (b : SkRect)
    (steps : List Step) :
    (SkiaDisplayList.construct b).mIsProjectionReceiver = false ∧
    ((SkiaDisplayList.applyTrace b steps).mIsProjectionReceiver = true →
      Step.markProjectionReceiver ∈ steps) := by
  refine ⟨rfl, fun htrue => ?_⟩
  by_contra hmem
  have hfalse := projectionReceiver_of_not_marked steps
    (SkiaDisplayList.construct b) hmem rfl
  rw [SkiaDisplayList.applyTrace, hfalse] at htrue
  exact Bool.false_ne_true htrue

/-- Witness for C10: a history that marks the flag. -/
theorem projectionReceiver_false_until_marked_witness :
    Step.markProjectionReceiver ∈ [Step.markProjectionReceiver] :=
  (projectionReceiver_false_until_marked rect0
      [Step.markProjectionReceiver]).2 (by decide)
